import Mathlib

/-!
Verification of the WebEye StreamPlayer frame-buffer / compositing core.

The definitions below are a shallow embedding of the C++ sources:
  StreamPlayerControl/StreamPlayer/StreamPlayer/Frame.cpp   (class Frame)
  streamplayer.cpp                                          (class StreamPlayer)
  the exported C API wrapper.

Pixel storage is modelled as a byte tape.  Frame.Update and Frame.ToBmp use
a tape indexed by Nat (all their accesses are at non-negative offsets
computed from row geometry); the in-place compositing effects of Frame.Draw
use a tape indexed by Int, mirroring raw C++ pointer arithmetic.
Machine integers are modelled as Nat/Int: every theorem below is stated in
a regime (sizes and configuration values small and non-negative) where the
C++ unsigned/signed mixed arithmetic coincides with the Nat/Int expressions
used here.
-/

/-- Modelled from the spec: the helper Frame::GetPadding lives in frame.h,
which is not among the provided sources.  Per the spec, stride padding keeps
each row aligned to a 4-byte boundary (bytes-per-row rounded up to the next
multiple of 4); the repository's C# proxy decodes the very same quantity as
lineSize % 4 > 0 ? 4 - lineSize % 4 : 0. -/
def GetPadding (lineSize : Nat) : Nat :=
  if lineSize % 4 > 0 then 4 - lineSize % 4 else 0

/-- Frame::Update (Frame.cpp 32-46): for each destination row y it copies
lineSize bytes of source row (height - y - 1) to offset (lineSize+padding)*y
and zero-fills the padding. The loop writes the disjoint row slots
[stride*y, stride*y + stride), so its net effect on the byte tape is this
pointwise description. Bytes beyond the written region keep their value. -/
def Frame.Update (height lineSize : Nat) (src : Nat → Nat) (buf : Nat → Nat) : Nat → Nat :=
  fun i =>
    if i < height * (lineSize + GetPadding lineSize) then
      if i % (lineSize + GetPadding lineSize) < lineSize then
        src ((height - 1 - i / (lineSize + GetPadding lineSize)) * lineSize
              + i % (lineSize + GetPadding lineSize))
      else 0
    else buf i

/-- The BITMAPINFOHEADER fields as written by Frame's constructor and by
Frame::ToBmp (SecureZeroMemory then the explicit field assignments). -/
structure BITMAPINFOHEADER where
  biSize : Nat
  biWidth : Nat
  biHeight : Nat
  biPlanes : Nat
  biBitCount : Nat
  biCompression : Nat
  biSizeImage : Nat
  biXPelsPerMeter : Nat
  biYPelsPerMeter : Nat
  biClrUsed : Nat
  biClrImportant : Nat
  deriving Repr, DecidableEq

/-- An exported snapshot: the header followed by the copied pixel bytes. -/
structure BmpExport where
  header : BITMAPINFOHEADER
  pixelData : List Nat
  deriving Repr, DecidableEq

/-- Frame::ToBmp (Frame.cpp 131-154): allocates header + height*width*3
bytes, zero-fills the header then sets the listed fields, and CopyMemory's
exactly height*width*3 bytes from the start of the internal pixel storage. -/
def Frame.ToBmp (width height : Nat) (buf : Nat → Nat) : BmpExport :=
  { header :=
      { biSize := 40, biWidth := width, biHeight := height, biPlanes := 1,
        biBitCount := 24, biCompression := 0, biSizeImage := 0,
        biXPelsPerMeter := 0, biYPelsPerMeter := 0, biClrUsed := 0,
        biClrImportant := 0 },
    pixelData := (List.range (height * width * 3)).map buf }

/-- The source-rectangle computation of Frame::Draw (Frame.cpp 81-91):
(xSrc, ySrc, dxSrc, dySrc), full frame unless zoom > 1.  The C++ divisions
are unsigned (width_ and height_ are uint32_t), hence Nat division against
zoom.toNat. -/
def Frame.zoomRect (w h : Nat) (zoom : Int) : Nat × Nat × Nat × Nat :=
  if 1 < zoom then
    ((w - w / zoom.toNat) / 2, (h - h / zoom.toNat) / 2, w / zoom.toNat, h / zoom.toNat)
  else
    (0, 0, w, h)

/-- StreamPlayer::SetupZoom (streamplayer.cpp 252-256): stores the requested
zoom, clamped below by 1. -/
def StreamPlayer.setupZoom (zoom : Int) : Int :=
  if zoom < 1 then 1 else zoom

/-- The per-byte body of Frame::brightenUp (Frame.cpp 124-129):
if (*ptr < (0xFF - value)) *ptr += value; else *ptr = 0xFF. -/
def brightenByte (value p : Nat) : Nat :=
  if p < 255 - value then p + value else 255

/-- Frame::brightenUp applied at a byte address: its 3-iteration loop
brightens the 3 consecutive bytes starting at base. -/
def Frame.brightenUp (buf : Int → Nat) (base : Int) (value : Nat) : Int → Nat :=
  fun i => if base ≤ i ∧ i < base + 3 then brightenByte value (buf i) else buf i

/-- The list of integers lo, lo+1, ..., hi (empty when hi < lo): the index
sequence of a C++ for loop from lo up to and including hi. -/
def intRange (lo hi : Int) : List Int :=
  (List.range (hi + 1 - lo).toNat).map (fun k : Nat => lo + (k : Int))

/-- The stroke half-width of the crosshair in Frame::Draw (Frame.cpp 95-96):
cw = cross / 8, clamped below by 1. -/
def crossWidth (c : Int) : Int :=
  if c / 8 < 1 then 1 else c / 8

/-- The (x, y) iteration sequence of the three crosshair loops of
Frame::Draw (Frame.cpp 99-113), in program order: the horizontal bar
(x from -c to c, y from -cw to cw), then the upper vertical stroke
(y from -c to -cw-1), then the lower vertical stroke (y from cw+1 to c). -/
def crossCells (c cw : Int) : List (Int × Int) :=
  ((intRange (-c) c).flatMap (fun x => (intRange (-cw) cw).map (fun y => (x, y)))) ++
  ((intRange (-c) (-cw - 1)).flatMap (fun y => (intRange (-cw) cw).map (fun x => (x, y)))) ++
  ((intRange (cw + 1) c).flatMap (fun y => (intRange (-cw) cw).map (fun x => (x, y))))

/-- The byte address used by the crosshair loops of Frame::Draw
(Frame.cpp 101): (width_ * (yCntr + y) + xCntr + x) * 3 with
xCntr = width_/2 and yCntr = height_/2. -/
def Frame.crossOfs (w h : Nat) (x y : Int) : Int :=
  ((w : Int) * (((h / 2 : Nat) : Int) + y) + ((w / 2 : Nat) : Int) + x) * 3

/-- The crosshair-stamping effect of Frame::Draw (Frame.cpp 93-114) on the
stored pixel bytes: cross is first divided by zoom, then every loop
iteration calls brightenUp with value 0x6F at its cell's byte address. -/
def Frame.drawCross (w h : Nat) (cross zoom : Int) (buf : Int → Nat) : Int → Nat :=
  (crossCells (cross / zoom) (crossWidth (cross / zoom))).foldl
    (fun b p => Frame.brightenUp b (Frame.crossOfs w h p.1 p.2) 111) buf

/-- The effect of a Frame::Draw call with no overlay argument on the stored
pixel bytes: the zoom block only computes the source rectangle for the final
DrawDibDraw and never writes to pixelsPtr_; the crosshair block stamps the
buffer in place when cross > 0.  (With an overlay, StretchDIB additionally
writes the overlay's pixels into this same storage; that branch is modelled
by Frame.pipGeometry below.) -/
def Frame.drawEffect (w h : Nat) (zoom cross : Int) (buf : Int → Nat) : Int → Nat :=
  if 0 < cross then Frame.drawCross w h cross zoom buf else buf

/-- The overlay rectangle as passed to StretchDIB by Frame::Draw. -/
structure PipRect where
  renderW : Int
  renderH : Int
  left : Int
  top : Int
  destY : Int
  deriving Repr, DecidableEq

/-- The overlay geometry computation of Frame::Draw (Frame.cpp 64-78):
render height from the requested width preserving the overlay's native
aspect ratio, centering defaults for negative top/left, and the StretchDIB
destination coordinates (DstX = left, DstY = pip->height_ - top - renderH).
The C++ mixed unsigned arithmetic coincides with these Int expressions
whenever the overlay rectangle fits inside the primary frame, the regime of
the theorems below. -/
def Frame.pipGeometry (W H pipW pipH : Nat) (reqW reqTop reqLeft : Int) : PipRect :=
  let rw : Int := if reqW ≤ 0 then (pipW : Int) else reqW
  let rh : Int := if reqW ≤ 0 then (pipH : Int) else reqW * (pipH : Int) / (pipW : Int)
  let left : Int := if reqLeft < 0 then ((W : Int) - rw) / 2 else reqLeft
  let top : Int := if reqTop < 0 then ((H : Int) - rh) / 2 else reqTop
  { renderW := rw, renderH := rh, left := left, top := top,
    destY := (pipH : Int) - top - rh }

/-- A constructed Frame object: immutable dimensions plus its pixel tape. -/
structure FrameObj where
  width : Nat
  height : Nat
  buf : Nat → Nat

/-- The one error the StreamPlayer accessors raise: the runtime_error
carrying the message no frame, thrown when framePtr_ is null. -/
inductive PlayerError where
  | noFrame
  deriving Repr, DecidableEq

/-- StreamPlayer::GetFrameSize (streamplayer.cpp 234-243): throws the
no-frame runtime_error when framePtr_ is null, otherwise returns the
frame's width and height. -/
def StreamPlayer.GetFrameSize (framePtr : Option FrameObj) : Except PlayerError (Nat × Nat) :=
  match framePtr with
  | none => .error .noFrame
  | some f => .ok (f.width, f.height)

/-- StreamPlayer::GetCurrentFrame (streamplayer.cpp 226-232): throws the
no-frame runtime_error when framePtr_ is null, otherwise returns the
frame's ToBmp export. -/
def StreamPlayer.GetCurrentFrame (framePtr : Option FrameObj) : Except PlayerError BmpExport :=
  match framePtr with
  | none => .error .noFrame
  | some f => .ok (Frame.ToBmp f.width f.height f.buf)

/-- The window messages the decode loops can post to the host window. -/
inductive WndMsg where
  | invalidate
  | streamStarted
  | streamStopped
  | streamFailed
  deriving Repr, DecidableEq

/-- Outcome of one Decoder::GetNextFrame call as observed by a decode loop:
a decoded frame, end of stream (null frame pointer), or a thrown
runtime_error. -/
inductive DecodeResult where
  | frame
  | eos
  | failure
  deriving Repr, DecidableEq

/-- The loop body of StreamPlayer::PlayPiP (streamplayer.cpp 99-146) run
against a finite trace of iterations; each trace item pairs the value of
stopRequestedPiP_ observed at that iteration with the decoder outcome.
Returns the messages posted to the host window and the final value of
we_have_pip_.  All PostMessage calls of this loop are commented out in the
source; a decoder failure or end-of-stream or an observed stop request sets
we_have_pip_ to false and exits, the first successful frame sets it to
true. -/
def StreamPlayer.playPiPLoop :
    List (Bool × DecodeResult) → Bool → Bool → List WndMsg × Bool
  | [], _, flag => ([], flag)
  | (_, DecodeResult.failure) :: _, _, _ => ([], false)
  | (_, DecodeResult.eos) :: _, _, _ => ([], false)
  | (stop, DecodeResult.frame) :: rest, first, flag =>
      if stop then ([], false)
      else StreamPlayer.playPiPLoop rest false (if first then true else flag)

/-- StreamPlayer::DrawFrame (streamplayer.cpp 176-183): returns none when no
primary frame exists (no Draw call at all); otherwise some pipArg where
pipArg is the overlay frame passed to Frame::Draw (some overlay frame only
when we_have_pip_ is set and the overlay frame pointer is non-null). -/
def StreamPlayer.drawFrameArgs (framePtr : Option FrameObj) (we_have_pip : Bool)
    (framePiPPtr : Option FrameObj) : Option (Option FrameObj) :=
  match framePtr with
  | none => none
  | some _ =>
      if we_have_pip && framePiPPtr.isSome then some framePiPPtr else some none

/-- StreamPlayerParams (streamplayer.h 30-40): a window handle and three
callbacks, each possibly null. -/
structure StreamPlayerParams where
  window : Option Nat
  streamStartedCallback : Option Nat
  streamStoppedCallback : Option Nat
  streamFailedCallback : Option Nat
  deriving Repr, DecidableEq

/-- The configuration state written by StreamPlayer::Initialize. -/
structure PlayerConfig where
  params : StreamPlayerParams
  pip_left : Int
  pip_top : Int
  pip_width : Int
  we_have_pip : Bool
  zoom : Int
  cross : Int
  deriving Repr, DecidableEq

/-- StreamPlayer::Initialize (streamplayer.cpp 21-41): the four assert
statements are debug-only (they abort the process under a debug build and
are no-ops under NDEBUG); they never throw.  The body contains no throw
statement, so it always completes, storing the params and resetting the
overlay/zoom/crosshair configuration to its defaults. -/
def StreamPlayer.Initialize (p : StreamPlayerParams) : Except Unit PlayerConfig :=
  .ok { params := p, pip_left := 0, pip_top := 0, pip_width := 0,
        we_have_pip := false, zoom := 1, cross := 0 }

/-- The exported Initialize wrapper (C API, part_000 lines 11-23): returns 1
if the player's Initialize throws a runtime_error, 0 otherwise. -/
def Exported.Initialize (p : StreamPlayerParams) : Int :=
  match StreamPlayer.Initialize p with
  | .ok _ => 0
  | .error _ => 1

/-! Claim theorems: buffer ingest, export, zoom, accessors, initialization. -/

/-- C1: for every picture whose line size matches the buffer's, Update
stores source rows in reversed vertical order (stored row y holds source
row height-1-y), zero-fills the padding bytes at the end of every stored
row, and a second Update fully overwrites the first: Update(P1) followed by
Update(P2) leaves the buffer exactly as Update(P2) alone would, with no
residue from P1. -/
theorem C1_update_spec (hh ls : Nat) (p1 p2 buf : Nat → Nat) (y o : Nat)
    (hy : y < hh) (ho : o < ls + GetPadding ls) :
    (o < ls →
      Frame.Update hh ls p2 buf ((ls + GetPadding ls) * y + o) =
        p2 ((hh - 1 - y) * ls + o)) ∧
    (ls ≤ o →
      Frame.Update hh ls p2 buf ((ls + GetPadding ls) * y + o) = 0) ∧
    Frame.Update hh ls p2 (Frame.Update hh ls p1 buf) = Frame.Update hh ls p2 buf := by
  have hs : 0 < ls + GetPadding ls := lt_of_le_of_lt (Nat.zero_le o) ho
  have hidx : (ls + GetPadding ls) * y + o < hh * (ls + GetPadding ls) := by
    calc (ls + GetPadding ls) * y + o
        < (ls + GetPadding ls) * y + (ls + GetPadding ls) := by omega
      _ = (ls + GetPadding ls) * (y + 1) := by ring
      _ ≤ (ls + GetPadding ls) * hh := Nat.mul_le_mul_left _ hy
      _ = hh * (ls + GetPadding ls) := Nat.mul_comm _ _
  have hmod : ((ls + GetPadding ls) * y + o) % (ls + GetPadding ls) = o := by
    rw [Nat.mul_add_mod]
    exact Nat.mod_eq_of_lt ho
  have hdiv : ((ls + GetPadding ls) * y + o) / (ls + GetPadding ls) = y := by
    rw [Nat.mul_add_div hs, Nat.div_eq_of_lt ho]
    omega
  refine ⟨?_, ?_, ?_⟩
  · intro hols
    unfold Frame.Update
    rw [if_pos hidx, hmod, hdiv, if_pos hols]
  · intro hols
    unfold Frame.Update
    rw [if_pos hidx, hmod, hdiv, if_neg (by omega)]
  · funext i
    unfold Frame.Update
    by_cases hi : i < hh * (ls + GetPadding ls)
    · rw [if_pos hi, if_pos hi]
    · rw [if_neg hi, if_neg hi, if_neg hi]

theorem C1_update_spec_witness :
    (2 < 3 →
      Frame.Update 2 3 (fun i => 10 * i) (fun _ => 7) ((3 + GetPadding 3) * 1 + 2) =
        (fun i => 10 * i) ((2 - 1 - 1) * 3 + 2)) ∧
    (3 ≤ 2 →
      Frame.Update 2 3 (fun i => 10 * i) (fun _ => 7) ((3 + GetPadding 3) * 1 + 2) = 0) ∧
    Frame.Update 2 3 (fun i => 10 * i) (Frame.Update 2 3 (fun i => i + 1) (fun _ => 7)) =
      Frame.Update 2 3 (fun i => 10 * i) (fun _ => 7) :=
  C1_update_spec 2 3 (fun i => i + 1) (fun i => 10 * i) (fun _ => 7) 1 2
    (by decide) (by decide)

/-- C2 (code_bug evaluation at the failing input): for a 1 by 2 frame with
lineSize 3, the internal storage described by the export header (24bpp,
bottom-up, rows rounded up to a 4-byte boundary) occupies
2 * (3 + GetPadding 3) = 8 bytes, but ToBmp allocates and copies only
height * width * 3 = 6 pixel bytes, so the snapshot cannot contain the
padded rows its own header describes. -/
theorem C2_toBmp_undersized :
    (Frame.ToBmp 1 2 (fun i => i)).pixelData.length = 6 ∧
    2 * (3 + GetPadding 3) = 8 ∧
    (Frame.ToBmp 1 2 (fun i => i)).pixelData.length < 2 * (3 + GetPadding 3) ∧
    (Frame.ToBmp 1 2 (fun i => i)).header.biWidth = 1 ∧
    (Frame.ToBmp 1 2 (fun i => i)).header.biHeight = 2 ∧
    (Frame.ToBmp 1 2 (fun i => i)).header.biBitCount = 24 ∧
    (Frame.ToBmp 1 2 (fun i => i)).header.biCompression = 0 := by
  refine ⟨by decide, by decide, by decide, rfl, rfl, rfl, rfl⟩

/-- C3: for zoom factors z > 1 the Draw source rectangle has size
(W/z, H/z) and origin ((W - W/z)/2, (H - H/z)/2), i.e. centered; for
z = 1 (the else branch) it is the full frame (0, 0, W, H); and SetupZoom
clamps any requested value below 1 (in particular 0 and negatives) to 1,
so the stored zoom is always at least 1. -/
theorem C3_zoom_spec (w h : Nat) (z zq : Int) :
    Frame.zoomRect w h z =
      (if 1 < z then
        ((w - w / z.toNat) / 2, (h - h / z.toNat) / 2, w / z.toNat, h / z.toNat)
       else (0, 0, w, h)) ∧
    StreamPlayer.setupZoom zq = (if zq < 1 then 1 else zq) ∧
    1 ≤ StreamPlayer.setupZoom zq := by
  refine ⟨rfl, rfl, ?_⟩
  unfold StreamPlayer.setupZoom
  split <;> omega

/-- C5 (code_bug evaluation at the failing input): primary frame 8 by 8,
overlay with native size 4 by 2, requested overlay width 4 and unset
(negative) top and left.  The computed geometry is renderW = 4,
renderH = 4 * 2 / 4 = 2 (aspect preserved), left = (8 - 4) / 2 = 2 and
top = (8 - 2) / 2 = 3 (centered), but the StretchDIB destination Y the code
passes is pipNativeH - top - renderH = -3, while placing the overlay at top
row 3 of the bottom-up primary buffer requires destY = H - top - renderH
= 3: the blit rectangle is not the computed one. -/
theorem C5_pip_misplaced :
    Frame.pipGeometry 8 8 4 2 4 (-1) (-1) =
      { renderW := 4, renderH := 2, left := 2, top := 3, destY := -3 } ∧
    (8 : Int) - 3 - 2 = 3 ∧
    ((-3 : Int) ≠ 3) := by
  refine ⟨by decide, by decide, by decide⟩

/-- C7: before any frame exists (null frame pointer), GetCurrentFrame and
GetFrameSize both fail with the no-frame error; with a frame present both
succeed, GetFrameSize reports the frame's immutable width and height, and
the snapshot header of GetCurrentFrame records those same dimensions. -/
theorem C7_getframe_spec (f : FrameObj) :
    StreamPlayer.GetFrameSize none = .error .noFrame ∧
    StreamPlayer.GetCurrentFrame none = .error .noFrame ∧
    StreamPlayer.GetFrameSize (some f) = .ok (f.width, f.height) ∧
    StreamPlayer.GetCurrentFrame (some f) = .ok (Frame.ToBmp f.width f.height f.buf) ∧
    (Frame.ToBmp f.width f.height f.buf).header.biWidth = f.width ∧
    (Frame.ToBmp f.width f.height f.buf).header.biHeight = f.height :=
  ⟨rfl, rfl, rfl, rfl, rfl, rfl⟩

/-- C9 (counterexample): calling the exported Initialize with a null window
handle and null callbacks returns status 0 (success), not a failure status:
the asserts in StreamPlayer::Initialize never throw the runtime_error the
wrapper converts to status 1, refuting the claim that such a call fails
with a ConfigurationError at the caller boundary. -/
theorem C9_initialize_null_succeeds :
    Exported.Initialize
      { window := none, streamStartedCallback := none,
        streamStoppedCallback := none, streamFailedCallback := none } = 0 ∧
    (0 : Int) ≠ 1 :=
  ⟨rfl, by decide⟩

/-- C9 (amended): Initialize validates its inputs only through debug-build
assertions; the exported wrapper reports success (status 0) for every
parameter combination, null window or callbacks included, because the body
never throws a runtime_error; and every call stores the parameters and
resets the overlay/zoom/crosshair configuration to its defaults (no
overlay, zoom = 1, crosshair = 0). -/
theorem C9_initialize_spec (p : StreamPlayerParams) :
    Exported.Initialize p = 0 ∧
    StreamPlayer.Initialize p =
      .ok { params := p, pip_left := 0, pip_top := 0, pip_width := 0,
            we_have_pip := false, zoom := 1, cross := 0 } :=
  ⟨rfl, rfl⟩

/-- C10: when Draw is given an overlay with a requested width of zero or a
negative value, the overlay render rectangle keeps the overlay's native
dimensions: renderW becomes the overlay's own width and renderH stays the
overlay's own height, with no aspect-ratio rescaling applied. -/
theorem C10_pip_native_size (W H pipW pipH : Nat) (reqW reqTop reqLeft : Int)
    (hreq : reqW ≤ 0) :
    (Frame.pipGeometry W H pipW pipH reqW reqTop reqLeft).renderW = pipW ∧
    (Frame.pipGeometry W H pipW pipH reqW reqTop reqLeft).renderH = pipH := by
  unfold Frame.pipGeometry
  rw [if_pos hreq, if_pos hreq]
  exact ⟨rfl, rfl⟩

theorem C10_pip_native_size_witness :
    (0 : Int) ≤ 0 ∧
    ((Frame.pipGeometry 8 8 4 2 0 1 1).renderW = 4 ∧
     (Frame.pipGeometry 8 8 4 2 0 1 1).renderH = 2) :=
  ⟨le_refl 0, C10_pip_native_size 8 8 4 2 0 1 1 (by decide)⟩

/-! The PiP decode loop: posted messages and the overlay-live flag. -/

theorem playPiPLoop_msgs (trace : List (Bool × DecodeResult)) (first flag : Bool) :
    (StreamPlayer.playPiPLoop trace first flag).1 = [] := by
  induction trace generalizing first flag with
  | nil => rfl
  | cons s rest ih =>
    obtain ⟨stop, r⟩ := s
    cases r with
    | failure => rfl
    | eos => rfl
    | frame =>
      show (if stop then ([], false)
            else StreamPlayer.playPiPLoop rest false (if first then true else flag)).1 = []
      by_cases hstop : stop
      · rw [if_pos hstop]
      · rw [if_neg hstop]
        exact ih _ _

theorem playPiPLoop_flag (trace : List (Bool × DecodeResult)) (first flag : Bool) :
    (StreamPlayer.playPiPLoop trace first flag).2 =
      (if trace.any (fun s => s.1 || (s.2 != DecodeResult.frame)) then false
       else if trace.isEmpty then flag else first || flag) := by
  induction trace generalizing first flag with
  | nil => rfl
  | cons s rest ih =>
    obtain ⟨stop, r⟩ := s
    cases r with
    | failure => simp [StreamPlayer.playPiPLoop, List.any_cons]
    | eos => simp [StreamPlayer.playPiPLoop, List.any_cons]
    | frame =>
      by_cases hstop : stop
      · subst hstop
        simp [StreamPlayer.playPiPLoop, List.any_cons]
      · have hstop2 : stop = false := by simpa using hstop
        subst hstop2
        show (StreamPlayer.playPiPLoop rest false (if first then true else flag)).2 = _
        rw [ih]
        simp only [List.any_cons, List.isEmpty_cons, Bool.false_or, bne_self_eq_false]
        rcases Bool.eq_false_or_eq_true (rest.any fun s => s.1 || (s.2 != DecodeResult.frame)) with
          hany | hany
        · rw [hany]
          rcases Bool.eq_false_or_eq_true rest.isEmpty with hemp | hemp <;>
            rw [hemp] <;> cases first <;> cases flag <;> simp
        · rw [hany]
          simp

/-- C8: the overlay (PiP) decode loop posts no window messages at all (in
particular none of Started, Stopped, Failed); its final we_have_pip_ value
is false whenever any iteration observes a stop request, end-of-stream or a
decoder failure, and true exactly when the loop (entered with
firstFrame = true) processes at least one successful frame and never hits a
terminating iteration; and DrawFrame passes the overlay frame to the
compositor only when we_have_pip_ is set and the overlay frame pointer is
non-null (and calls Draw at all only when a primary frame exists). -/
theorem C8_pip_events_spec (trace : List (Bool × DecodeResult)) (first flag : Bool)
    (f : FrameObj) (pf : Option FrameObj) :
    (StreamPlayer.playPiPLoop trace first flag).1 = [] ∧
    (StreamPlayer.playPiPLoop trace first flag).2 =
      (if trace.any (fun s => s.1 || (s.2 != DecodeResult.frame)) then false
       else if trace.isEmpty then flag else first || flag) ∧
    StreamPlayer.drawFrameArgs (some f) flag pf =
      some (if flag && pf.isSome then pf else none) ∧
    StreamPlayer.drawFrameArgs none flag pf = none := by
  refine ⟨playPiPLoop_msgs trace first flag, playPiPLoop_flag trace first flag, ?_, rfl⟩
  show (if flag && pf.isSome then some pf else some none) = _
  by_cases hc : flag && pf.isSome
  · rw [if_pos hc, if_pos hc]
  · rw [if_neg hc, if_neg hc]

/-! Helper lemmas for the crosshair loops of Frame::Draw. -/

theorem mem_intRange (lo hi a : Int) : a ∈ intRange lo hi ↔ lo ≤ a ∧ a ≤ hi := by
  unfold intRange
  simp only [List.mem_map, List.mem_range]
  constructor
  · rintro ⟨k, hk, rfl⟩
    omega
  · intro hla
    exact ⟨(a - lo).toNat, by omega, by omega⟩

theorem intRange_nodup (lo hi : Int) : (intRange lo hi).Nodup := by
  unfold intRange
  refine (List.nodup_range _).map_on ?_
  intro x _ y _ hxy
  omega

theorem nodup_flatMap_pairs (xs ys : List Int) (g : Int → Int → Int × Int)
    (hx : xs.Nodup) (hy : ys.Nodup)
    (hinj : ∀ a b c d, g a b = g c d → a = c ∧ b = d) :
    (xs.flatMap (fun a => (ys.map (fun b => g a b)))).Nodup := by
  induction xs with
  | nil => simp
  | cons a rest ih =>
    rw [List.flatMap_cons, List.nodup_append]
    rw [List.nodup_cons] at hx
    refine ⟨?_, ih hx.2, ?_⟩
    · refine hy.map_on ?_
      intro b _ d _ hbd
      exact (hinj a b a d hbd).2
    · intro p hp hp2
      simp only [List.mem_map] at hp
      obtain ⟨b, _, hpb⟩ := hp
      simp only [List.mem_flatMap, List.mem_map] at hp2
      obtain ⟨c, hc, d, _, hpd⟩ := hp2
      have : a = c := (hinj a b c d (hpb.trans hpd.symm)).1
      exact hx.1 (this ▸ hc)

theorem mem_grid_xy (xs ys : List Int) (x y : Int) :
    (x, y) ∈ xs.flatMap (fun a => (ys.map (fun b => (a, b)))) ↔ x ∈ xs ∧ y ∈ ys := by
  simp only [List.mem_flatMap, List.mem_map, Prod.mk.injEq]
  constructor
  · rintro ⟨a, ha, b, hb, rfl, rfl⟩
    exact ⟨ha, hb⟩
  · rintro ⟨hx, hy⟩
    exact ⟨x, hx, y, hy, rfl, rfl⟩

theorem mem_grid_yx (xs ys : List Int) (x y : Int) :
    (x, y) ∈ ys.flatMap (fun b => (xs.map (fun a => (a, b)))) ↔ x ∈ xs ∧ y ∈ ys := by
  simp only [List.mem_flatMap, List.mem_map, Prod.mk.injEq]
  constructor
  · rintro ⟨b, hb, a, ha, rfl, rfl⟩
    exact ⟨ha, hb⟩
  · rintro ⟨hx, hy⟩
    exact ⟨y, hy, x, hx, rfl, rfl⟩

theorem mem_crossCells (c cw : Int) (p : Int × Int) :
    p ∈ crossCells c cw ↔
      ((-c ≤ p.1 ∧ p.1 ≤ c ∧ -cw ≤ p.2 ∧ p.2 ≤ cw) ∨
       (-cw ≤ p.1 ∧ p.1 ≤ cw ∧ -c ≤ p.2 ∧ p.2 ≤ -cw - 1) ∨
       (-cw ≤ p.1 ∧ p.1 ≤ cw ∧ cw + 1 ≤ p.2 ∧ p.2 ≤ c)) := by
  obtain ⟨x, y⟩ := p
  unfold crossCells
  rw [List.mem_append, List.mem_append, mem_grid_xy, mem_grid_yx, mem_grid_yx]
  simp only [mem_intRange]
  constructor
  · rintro ((⟨h1, h2⟩ | ⟨h1, h2⟩) | ⟨h1, h2⟩) <;> omega
  · rintro (h | h | h)
    · exact Or.inl (Or.inl ⟨⟨h.1, h.2.1⟩, h.2.2.1, h.2.2.2⟩)
    · exact Or.inl (Or.inr ⟨⟨h.1, h.2.1⟩, h.2.2.1, h.2.2.2⟩)
    · exact Or.inr ⟨⟨h.1, h.2.1⟩, h.2.2.1, h.2.2.2⟩

theorem brightenByte_eq_min (p : Nat) : brightenByte 111 p = min (p + 111) 255 := by
  unfold brightenByte
  rcases Nat.lt_or_ge p (255 - 111) with hp | hp
  · rw [if_pos hp]
    exact (min_eq_left (by omega)).symm
  · rw [if_neg (by omega)]
    exact (min_eq_right (by omega)).symm

theorem crossOfs_eq_of_triple (w h : Nat) (x1 y1 x2 y2 i : Int)
    (h1 : Frame.crossOfs w h x1 y1 ≤ i) (h2 : i < Frame.crossOfs w h x1 y1 + 3)
    (h3 : Frame.crossOfs w h x2 y2 ≤ i) (h4 : i < Frame.crossOfs w h x2 y2 + 3) :
    Frame.crossOfs w h x1 y1 = Frame.crossOfs w h x2 y2 := by
  obtain ⟨A, hA⟩ : ∃ A, Frame.crossOfs w h x1 y1 = A * 3 := ⟨_, rfl⟩
  obtain ⟨B, hB⟩ : ∃ B, Frame.crossOfs w h x2 y2 = B * 3 := ⟨_, rfl⟩
  rw [hA] at h1 h2 ⊢
  rw [hB] at h3 h4 ⊢
  omega

theorem foldl_brightenUp_char (w h : Nat) (cells : List (Int × Int)) (buf : Int → Nat)
    (i : Int) (hnd : (cells.map (fun p => Frame.crossOfs w h p.1 p.2)).Nodup) :
    (cells.foldl (fun b p => Frame.brightenUp b (Frame.crossOfs w h p.1 p.2) 111) buf) i =
      if ∃ p ∈ cells, Frame.crossOfs w h p.1 p.2 ≤ i ∧ i < Frame.crossOfs w h p.1 p.2 + 3
      then brightenByte 111 (buf i)
      else buf i := by
  induction cells generalizing buf with
  | nil => simp
  | cons q rest ih =>
    rw [List.map_cons, List.nodup_cons] at hnd
    rw [List.foldl_cons, ih _ hnd.2]
    by_cases hq : ∃ p ∈ rest, Frame.crossOfs w h p.1 p.2 ≤ i ∧ i < Frame.crossOfs w h p.1 p.2 + 3
    · rw [if_pos hq]
      obtain ⟨p, hp, hpi⟩ := hq
      have hnq : ¬(Frame.crossOfs w h q.1 q.2 ≤ i ∧ i < Frame.crossOfs w h q.1 q.2 + 3) := by
        intro hqi
        refine hnd.1 ?_
        rw [List.mem_map]
        exact ⟨p, hp, (crossOfs_eq_of_triple w h p.1 p.2 q.1 q.2 i hpi.1 hpi.2 hqi.1 hqi.2)⟩
      have hbuf : Frame.brightenUp buf (Frame.crossOfs w h q.1 q.2) 111 i = buf i := by
        simp only [Frame.brightenUp]
        rw [if_neg hnq]
      rw [hbuf, if_pos ⟨p, List.mem_cons_of_mem q hp, hpi⟩]
    · rw [if_neg hq]
      simp only [Frame.brightenUp]
      by_cases hqi : Frame.crossOfs w h q.1 q.2 ≤ i ∧ i < Frame.crossOfs w h q.1 q.2 + 3
      · rw [if_pos hqi, if_pos ⟨q, List.mem_cons_self q rest, hqi⟩]
      · rw [if_neg hqi, if_neg ?_]
        rintro ⟨p, hp, hpi⟩
        rcases List.mem_cons.mp hp with rfl | hpr
        · exact hqi hpi
        · exact hq ⟨p, hpr, hpi⟩

theorem crossOfs_inj (w h : Nat) (x1 y1 x2 y2 : Int)
    (hx1a : 0 ≤ ((w / 2 : Nat) : Int) + x1) (hx1b : ((w / 2 : Nat) : Int) + x1 < (w : Int))
    (hy1a : 0 ≤ ((h / 2 : Nat) : Int) + y1) (hy1b : ((h / 2 : Nat) : Int) + y1 < (h : Int))
    (hx2a : 0 ≤ ((w / 2 : Nat) : Int) + x2) (hx2b : ((w / 2 : Nat) : Int) + x2 < (w : Int))
    (hy2a : 0 ≤ ((h / 2 : Nat) : Int) + y2) (hy2b : ((h / 2 : Nat) : Int) + y2 < (h : Int))
    (heq : Frame.crossOfs w h x1 y1 = Frame.crossOfs w h x2 y2) :
    x1 = x2 ∧ y1 = y2 := by
  unfold Frame.crossOfs at heq
  have heq2 : (w : Int) * (((h / 2 : Nat) : Int) + y1) + (((w / 2 : Nat) : Int) + x1) =
      (w : Int) * (((h / 2 : Nat) : Int) + y2) + (((w / 2 : Nat) : Int) + x2) := by
    omega
  have key : (w : Int) * ((((h / 2 : Nat) : Int) + y1) - (((h / 2 : Nat) : Int) + y2)) =
      (((w / 2 : Nat) : Int) + x2) - (((w / 2 : Nat) : Int) + x1) := by
    linear_combination heq2
  rcases lt_trichotomy (((h / 2 : Nat) : Int) + y1) (((h / 2 : Nat) : Int) + y2) with hlt | heqr | hgt
  · exfalso
    have hw : (w : Int) ≤ (w : Int) * ((((h / 2 : Nat) : Int) + y2) - (((h / 2 : Nat) : Int) + y1)) :=
      le_mul_of_one_le_right (by omega) (by omega)
    have hswap : (w : Int) * ((((h / 2 : Nat) : Int) + y1) - (((h / 2 : Nat) : Int) + y2)) =
        -((w : Int) * ((((h / 2 : Nat) : Int) + y2) - (((h / 2 : Nat) : Int) + y1))) := by
      ring
    omega
  · have hy : y1 = y2 := by omega
    subst hy
    have hz : (w : Int) * ((((h / 2 : Nat) : Int) + y1) - (((h / 2 : Nat) : Int) + y1)) = 0 := by
      ring
    omega
  · exfalso
    have hw : (w : Int) ≤ (w : Int) * ((((h / 2 : Nat) : Int) + y1) - (((h / 2 : Nat) : Int) + y2)) :=
      le_mul_of_one_le_right (by omega) (by omega)
    omega

theorem crossCells_nodup (c cw : Int) : (crossCells c cw).Nodup := by
  unfold crossCells
  rw [List.nodup_append, List.nodup_append]
  refine ⟨⟨?_, ?_, ?_⟩, ?_, ?_⟩
  · refine nodup_flatMap_pairs _ _ (fun a b => (a, b)) (intRange_nodup _ _) (intRange_nodup _ _) ?_
    intro a b c2 d hg
    injection hg with h1 h2
    exact ⟨h1, h2⟩
  · refine nodup_flatMap_pairs _ _ (fun a b => (b, a)) (intRange_nodup _ _) (intRange_nodup _ _) ?_
    intro a b c2 d hg
    injection hg with h1 h2
    exact ⟨h2, h1⟩
  · intro p hp hq
    obtain ⟨x, y⟩ := p
    rw [mem_grid_xy] at hp
    rw [mem_grid_yx] at hq
    simp only [mem_intRange] at hp hq
    omega
  · refine nodup_flatMap_pairs _ _ (fun a b => (b, a)) (intRange_nodup _ _) (intRange_nodup _ _) ?_
    intro a b c2 d hg
    injection hg with h1 h2
    exact ⟨h2, h1⟩
  · intro p hp hq
    obtain ⟨x, y⟩ := p
    rw [List.mem_append, mem_grid_xy, mem_grid_yx] at hp
    rw [mem_grid_yx] at hq
    simp only [mem_intRange] at hp hq
    omega

theorem crossCells_ofs_nodup (w h : Nat) (c cw : Int) (hcw1 : 1 ≤ cw) (hcwc : cw ≤ c)
    (hb1 : c ≤ ((w / 2 : Nat) : Int)) (hb2 : ((w / 2 : Nat) : Int) + c < (w : Int))
    (hb3 : c ≤ ((h / 2 : Nat) : Int)) (hb4 : ((h / 2 : Nat) : Int) + c < (h : Int)) :
    ((crossCells c cw).map (fun p => Frame.crossOfs w h p.1 p.2)).Nodup := by
  refine List.Nodup.map_on ?_ (crossCells_nodup c cw)
  intro p hp q hq heq
  have hpm := (mem_crossCells c cw p).mp hp
  have hqm := (mem_crossCells c cw q).mp hq
  have hpq := crossOfs_inj w h p.1 p.2 q.1 q.2 (by omega) (by omega) (by omega) (by omega)
    (by omega) (by omega) (by omega) (by omega) heq
  exact Prod.ext_iff.mpr ⟨hpq.1, hpq.2⟩

/-- C4 (amended): with a crosshair half-length L > 0 at zoom z restricted
to 1 <= z <= L (so the truncated effective half-length L/z is at least 1;
for z > L the claim fails, see the counterexample) and the marker fitting
inside the frame, Draw brightens exactly the bytes of the pixels of a
horizontal and a vertical segment of effective half-length L/z centered at
pixel (W/2, H/2): each of the three channel bytes of a pixel of the marker
becomes min(old + 0x6F, 0xFF), saturating at the maximum channel value and
never wrapping, and every in-frame pixel outside the two segments is left
unchanged. -/
theorem C4_cross_brighten (w h : Nat) (L z : Int) (buf : Int → Nat) (dx dy ch : Int)
    (hL : 0 < L) (hz : 1 ≤ z) (hzL : z ≤ L) (hch0 : 0 ≤ ch) (hch3 : ch < 3)
    (hb1 : L / z ≤ ((w / 2 : Nat) : Int)) (hb2 : ((w / 2 : Nat) : Int) + L / z < (w : Int))
    (hb3 : L / z ≤ ((h / 2 : Nat) : Int)) (hb4 : ((h / 2 : Nat) : Int) + L / z < (h : Int)) :
    (((-(L / z) ≤ dx ∧ dx ≤ L / z ∧ -(crossWidth (L / z)) ≤ dy ∧ dy ≤ crossWidth (L / z)) ∨
      (-(crossWidth (L / z)) ≤ dx ∧ dx ≤ crossWidth (L / z) ∧ -(L / z) ≤ dy ∧ dy ≤ L / z)) →
      Frame.drawCross w h L z buf (Frame.crossOfs w h dx dy + ch) =
        min (buf (Frame.crossOfs w h dx dy + ch) + 111) 255) ∧
    (0 ≤ ((w / 2 : Nat) : Int) + dx → ((w / 2 : Nat) : Int) + dx < (w : Int) →
      0 ≤ ((h / 2 : Nat) : Int) + dy → ((h / 2 : Nat) : Int) + dy < (h : Int) →
      ¬((-(L / z) ≤ dx ∧ dx ≤ L / z ∧ -(crossWidth (L / z)) ≤ dy ∧ dy ≤ crossWidth (L / z)) ∨
        (-(crossWidth (L / z)) ≤ dx ∧ dx ≤ crossWidth (L / z) ∧ -(L / z) ≤ dy ∧ dy ≤ L / z)) →
      Frame.drawCross w h L z buf (Frame.crossOfs w h dx dy + ch) =
        buf (Frame.crossOfs w h dx dy + ch)) := by
  have hc1 : 1 ≤ L / z := by
    have h0 : z / z = 1 := Int.ediv_self (by omega)
    calc (1 : Int) = z / z := h0.symm
    _ ≤ L / z := Int.ediv_le_ediv (by omega) hzL
  have hcw1 : 1 ≤ crossWidth (L / z) := by
    unfold crossWidth
    split <;> omega
  have hcwc : crossWidth (L / z) ≤ L / z := by
    have h8 : L / z / 8 ≤ L / z := Int.ediv_le_self 8 (by omega)
    unfold crossWidth
    split <;> omega
  unfold Frame.drawCross
  rw [foldl_brightenUp_char w h _ buf _
    (crossCells_ofs_nodup w h (L / z) (crossWidth (L / z)) hcw1 hcwc hb1 hb2 hb3 hb4)]
  constructor
  · intro hseg
    have hmem : (dx, dy) ∈ crossCells (L / z) (crossWidth (L / z)) := by
      rw [mem_crossCells]
      dsimp only
      omega
    rw [if_pos ⟨(dx, dy), hmem, by dsimp only; omega⟩, brightenByte_eq_min]
  · intro hdx1 hdx2 hdy1 hdy2 hnseg
    have hnex : ¬∃ p ∈ crossCells (L / z) (crossWidth (L / z)),
        Frame.crossOfs w h p.1 p.2 ≤ Frame.crossOfs w h dx dy + ch ∧
        Frame.crossOfs w h dx dy + ch < Frame.crossOfs w h p.1 p.2 + 3 := by
      rintro ⟨p, hp, hpi⟩
      have hpm := (mem_crossCells (L / z) (crossWidth (L / z)) p).mp hp
      have hofs := crossOfs_eq_of_triple w h p.1 p.2 dx dy (Frame.crossOfs w h dx dy + ch)
        hpi.1 hpi.2 (by omega) (by omega)
      have hinj := crossOfs_inj w h p.1 p.2 dx dy (by omega) (by omega) (by omega) (by omega)
        hdx1 hdx2 hdy1 hdy2 hofs
      exact hnseg (by omega)
    rw [if_neg hnex]

theorem C4_cross_brighten_witness :
    (0 : Int) < 2 ∧
    Frame.drawCross 8 8 2 1 (fun _ => 0) (Frame.crossOfs 8 8 2 0 + 0) = min (0 + 111) 255 :=
  ⟨by decide,
   (C4_cross_brighten 8 8 2 1 (fun _ => 0) 2 0 0 (by decide) (by decide) (by decide)
      (by decide) (by decide) (by decide) (by decide) (by decide) (by decide)).1
     (by decide)⟩

/-- C6 (counterexample): with zoom 1 and crosshair 1 on an 8 by 8 frame of
all-zero pixels, Draw changes the stored center byte from 0 to 0x6F: the
compositor writes the crosshair into the frame buffer in place, so a Draw
call does not leave the stored pixels unchanged. -/
theorem C6_draw_not_pure :
    Frame.drawEffect 8 8 1 1 (fun _ => 0) (Frame.crossOfs 8 8 0 0) ≠
      (fun _ : Int => (0 : Nat)) (Frame.crossOfs 8 8 0 0) := by
  decide

/-- C6 (amended): a Draw call with no overlay and with the crosshair
disabled (cross <= 0) leaves the stored pixels unchanged; the zoom path
never writes to the buffer.  (With cross > 0 the crosshair is brightened in
place, as the counterexample shows, so repeated painting without an
intervening Update keeps brightening those pixels until they saturate.) -/
theorem C6_draw_pure_no_cross (w h : Nat) (zoom cross : Int) (buf : Int → Nat)
    (hc : cross ≤ 0) : Frame.drawEffect w h zoom cross buf = buf := by
  unfold Frame.drawEffect
  rw [if_neg (by omega)]

theorem C6_draw_pure_no_cross_witness :
    (0 : Int) ≤ 0 ∧ Frame.drawEffect 8 8 1 0 (fun _ => 42) = (fun _ => 42) :=
  ⟨le_refl 0, C6_draw_pure_no_cross 8 8 1 0 (fun _ => 42) (by decide)⟩

/-- C4 (counterexample): with crosshair half-length L = 1 at zoom z = 2 on
an 8 by 8 frame of all-zero pixels, the pixel (W/2 + 1, H/2) lies inside
the claimed vertical segment of effective half-length L/z = 0 with the
code's stroke half-width cw = 1 (first conjunct), yet Draw leaves its bytes
unchanged at 0 instead of brightening them to min(0 + 0x6F, 0xFF): the
integer division truncates cross to 0, the two vertical-stroke loops become
empty, and only the single center column is brightened, so the claim as
stated fails for zoom values exceeding the half-length. -/
theorem C4_cross_not_segments :
    (-(crossWidth ((1 : Int) / 2)) ≤ 1 ∧ (1 : Int) ≤ crossWidth ((1 : Int) / 2) ∧
      -((1 : Int) / 2) ≤ 0 ∧ (0 : Int) ≤ (1 : Int) / 2) ∧
    Frame.drawCross 8 8 1 2 (fun _ => 0) (Frame.crossOfs 8 8 1 0) = 0 ∧
    (0 : Nat) ≠ min (0 + 111) 255 := by
  refine ⟨by decide, by decide, by decide⟩
